import Mathlib

/-!
# OSM: aggregated discovery responses and the worker pool

A shallow embedding of `pkg/envoy/ads/response.go` and of the sequential part of
`pkg/workerpool/workerpool.go`, with the properties of the specification stated over it.

Conventions of the embedding:

* a Go `error` is an `Option Error` (`none` is `nil`);
* the proxy, the gRPC stream and the collaborators' call log are threaded through every
  function as a `World`; each call to an external collaborator (stream `Send`, snapshot
  cache, metrics, debug log) appends an `Event` to `World.trace`, log lines are left out;
* a `mapset.Set` of strings is the duplicate-free list of its elements in iteration order;
* machine integers are naturals or integers reduced modulo `2^64`.
-/

namespace Osm

/-! ## Worker pool (`pkg/workerpool/workerpool.go`) -/

namespace Workerpool

/-- Go conversion `uint64(x)` of an `int`. -/
def toUint64 (x : Int) : Nat := (x % 2 ^ 64).toNat

/-- Go conversion `int(x)` of a `uint64` (two's complement, 64-bit `int`). -/
def toInt (x : Nat) : Int :=
  if x % 2 ^ 64 < 2 ^ 63 then ((x % 2 ^ 64 : Nat) : Int) else ((x % 2 ^ 64 : Nat) : Int) - 2 ^ 64

/-- The `WorkerPool` object: the worker count, the capacity of the `jobs` channel, the number
of `work` goroutines started and whether the `stop` channel is closed. -/
structure WorkerPool where
  nWorkers : Nat
  jobsCap : Nat
  started : Nat
  stopped : Bool
  deriving DecidableEq, Repr

/-- The constructor `NewWorkerPool(nWorkers)`; `gomaxprocs` is the value of
`runtime.GOMAXPROCS(-1)` and `maxChanCap` the largest buffer capacity for which
`make(chan Job, n)` returns on the host: the runtime panics (`makechan: size out of range`)
for a negative `n` and for an `n` whose buffer exceeds the allocation limit, that is above
`(maxAlloc - hchanSize) / 16`, which is `2^44 - 6` on linux/amd64. A panic is the `none`
result. -/
def NewWorkerPool (gomaxprocs : Int) (maxChanCap : Nat) (nWorkers : Int) : Option WorkerPool :=
  let nWorkers := if nWorkers = 0 then gomaxprocs else nWorkers
  if nWorkers < 0 ∨ (maxChanCap : Int) < nWorkers then none
  else some
    { nWorkers := toUint64 nWorkers
      jobsCap := nWorkers.toNat
      started := nWorkers.toNat
      stopped := false }

/-- The method `GetWorkerNumber`: `int(wp.nWorkers)`. -/
def GetWorkerNumber (wp : WorkerPool) : Int := toInt wp.nWorkers

end Workerpool

/-! ## Discovery responses (`pkg/envoy/ads/response.go`) -/

/-- The type `envoy.TypeURI`, a Go string type. -/
abbrev TypeURI := String

/-- Go `error` values met in `response.go`. -/
inductive Error where
  | errUnknownTypeURL
  | errCreatingResponse
  | other (msg : String)
  deriving DecidableEq, Repr

/-- A `mapset.Set` holding strings. -/
abbrev Mapset := List String

/-- The empty set `mapset.NewSet()`. -/
def Mapset.NewSet : Mapset := []

/-- Membership `set.Contains(x)`. -/
def Mapset.Contains (s : Mapset) (x : String) : Bool := decide (x ∈ s)

/-- Insertion `set.Add(x)`. -/
def Mapset.Add (s : Mapset) (x : String) : Mapset := if x ∈ s then s else s ++ [x]

/-- Modelled from the spec: `getResourceSliceFromMapset` is not among the sources; a
synthesized request carries "resource names copied from the endpoint's current subscription
set". The slice lists the elements of the set in its iteration order. -/
def getResourceSliceFromMapset (s : Mapset) : List String := s

/-- The decimal rendering `strconv.FormatUint(v, 10)`. -/
def FormatUint (v : Nat) : String := String.mk (Nat.toDigits 10 v)

/-- Reading a string of decimal digits as a number. -/
def ParseUint (s : String) : Nat := s.data.foldl (fun n c => n * 10 + (c.toNat - 48)) 0

/-- The message `xds_discovery.DiscoveryRequest`, the fields the response path reads or writes. -/
structure DiscoveryRequest where
  TypeUrl : String
  ResourceNames : List String := []
  VersionInfo : String := ""
  ResponseNonce : String := ""
  deriving DecidableEq, Repr

/-- The message `xds_discovery.DiscoveryResponse`; `A` is the type of serialized resources (`anypb.Any`). -/
structure DiscoveryResponse (A : Type) where
  TypeUrl : String
  VersionInfo : String
  Nonce : String
  Resources : List A := []
  deriving DecidableEq, Repr

/-- Modelled from the spec: `envoy.Proxy` is not among the sources. Per discovery type the
session keeps "a monotonically increasing version counter, the most recently issued
correlation nonce, the set of resource names the endpoint is currently subscribed to, and the
set of resource names last successfully delivered". The counter is a `uint64`: its value is
handed to `strconv.FormatUint`. -/
structure Proxy where
  name : String
  lastSentVersion : TypeURI → Nat
  lastNonce : TypeURI → String
  subscribedResources : TypeURI → Mapset
  lastxDSResourcesSent : TypeURI → Mapset

/-- Modelled from the spec: `Proxy.IncrementLastSentVersion` is not among the sources;
"Version = atomic post-increment of the session's per-type counter". The counter is
incremented in `uint64` arithmetic and the incremented value is returned. -/
def Proxy.IncrementLastSentVersion (p : Proxy) (typeURI : TypeURI) : Nat × Proxy :=
  let v := (p.lastSentVersion typeURI + 1) % 2 ^ 64
  (v, { p with lastSentVersion := Function.update p.lastSentVersion typeURI v })

/-- Modelled from the spec: `Proxy.SetNewNonce` is not among the sources; "Nonce = freshly
generated opaque token, replacing the prior one". The token comes from the caller's nonce
source. -/
def Proxy.SetNewNonce (p : Proxy) (typeURI : TypeURI) (token : String) : String × Proxy :=
  (token, { p with lastNonce := Function.update p.lastNonce typeURI token })

/-- Modelled from the spec: `Proxy.GetSubscribedResources` is not among the sources; it reads
"the set of resource names the endpoint is currently subscribed to" for the type. -/
def Proxy.GetSubscribedResources (p : Proxy) (typeURI : TypeURI) : Mapset :=
  p.subscribedResources typeURI

/-- Modelled from the spec: `Proxy.SetLastResourcesSent` is not among the sources; it commits
"the computed sent-set onto the session state, replacing the prior value". -/
def Proxy.SetLastResourcesSent (p : Proxy) (typeURI : TypeURI) (sent : Mapset) : Proxy :=
  { p with lastxDSResourcesSent := Function.update p.lastxDSResourcesSent typeURI sent }

/-- The map `map[string][]types.Resource` aggregated for the snapshot cache. -/
abbrev ResourceMap (R : Type) := String → Option (List R)

/-- Calls to collaborators, in the order they are made. `generate` and `respond` record the
calls of `getTypeResources` and `SendDiscoveryResponse` made by `sendResponse` while it
processes `typeURI`. -/
inductive Event (R A : Type) where
  | trackXDSLog (proxyName : String) (typeURI : TypeURI)
  | xdsPathTimeTrack (typeURI : TypeURI) (success : Bool)
  | generate (typeURI : TypeURI) (request : DiscoveryRequest) (result : Except Error (List R))
  | respond (typeURI : TypeURI) (request : DiscoveryRequest) (resources : List R)
  | Send (response : DiscoveryResponse A) (err : Option Error)
  | ProxyResponseSendErrorCount (typeURI : TypeURI)
  | ProxyResponseSendSuccessCount (typeURI : TypeURI)
  | RecordFullSnapshot (snapshot : ResourceMap R) (err : Option Error)

/-- The mutable surroundings of one call: the proxy, the state of the gRPC stream, the state
of the nonce source and the log of collaborator calls. -/
structure World (R A τ : Type) where
  proxy : Proxy
  stream : τ
  clock : Nat
  trace : List (Event R A) := []

/-- Appends one event to the log. -/
def World.log {R A τ : Type} (w : World R A τ) (e : Event R A) : World R A τ :=
  { w with trace := w.trace ++ [e] }

/-- The `Server` fields read by the response path. A handler reads the proxy and the request
and returns resources or an error. -/
structure Server (R : Type) where
  xdsHandlers : TypeURI → Option (Proxy → DiscoveryRequest → Except Error (List R))
  cacheEnabled : Bool

/-- What the response path takes from outside the sources: third-party functions
(`anypb.New`, `cache.GetResourceName`, the stream's `Send`), declarations of this repository
that are not among the sources (`envoy.IsWildcardTypeURI`, `envoy.TypeADS`,
`len(envoy.XDSResponseOrder)`, `Server.RecordFullSnapshot`), the nonce source and the mesh
configuration flag `EnableDebugServer`. -/
structure Collaborators (R A τ : Type) where
  anypbNew : R → Except Error A
  GetResourceName : R → String
  IsWildcardTypeURI : TypeURI → Bool
  Send : τ → DiscoveryResponse A → Option Error × τ
  RecordFullSnapshot : Proxy → ResourceMap R → Option Error
  newNonce : Nat → String
  EnableDebugServer : Bool
  TypeADS : TypeURI
  XDSResponseOrderLen : Nat

section Code

variable {R A τ : Type}

/-- The method `Server.getTypeResources`: looks up the handler of the request's type and
invokes it; a missing handler gives `errUnknownTypeURL`, a handler error gives
`errCreatingResponse`. -/
def getTypeResources (s : Server R) (c : Collaborators R A τ) (w : World R A τ)
    (request : DiscoveryRequest) : Except Error (List R) × World R A τ :=
  let typeURI : TypeURI := request.TypeUrl
  match s.xdsHandlers typeURI with
  | none => (.error .errUnknownTypeURL, w)
  | some handler =>
    let w := if c.EnableDebugServer then w.log (.trackXDSLog w.proxy.name typeURI) else w
    match handler w.proxy request with
    | .error _ => (.error .errCreatingResponse, w.log (.xdsPathTimeTrack typeURI false))
    | .ok resources => (.ok resources, w.log (.xdsPathTimeTrack typeURI true))

/-- One iteration of the loop over `resourcesToSend` in `SendDiscoveryResponse`, on the pair
`(response.Resources, resourcesSent)`. -/
def marshalStep (c : Collaborators R A τ) (typeURI : TypeURI) (subscribedResources : Mapset)
    (acc : List A × Mapset) (res : R) : List A × Mapset :=
  match c.anypbNew res with
  | .error _ => acc
  | .ok proto =>
    let resources := acc.1 ++ [proto]
    if !c.IsWildcardTypeURI typeURI then
      let currentResponseResourceName := c.GetResourceName res
      if subscribedResources.Contains currentResponseResourceName then
        (resources, acc.2.Add currentResponseResourceName)
      else (resources, acc.2)
    else (resources, acc.2)

/-- The method `Server.SendDiscoveryResponse`: builds one response for the request's type
from `resourcesToSend` and hands it to the stream. The version counter and the nonce are
updated while the response is built, the last-sent set after a successful `Send`. The call of
`validateRequestResponse` only writes log lines and is left out. -/
def SendDiscoveryResponse (c : Collaborators R A τ) (w : World R A τ)
    (request : DiscoveryRequest) (resourcesToSend : List R) : Option Error × World R A τ :=
  let typeURI : TypeURI := request.TypeUrl
  let (version, proxy) := w.proxy.IncrementLastSentVersion typeURI
  let (nonce, proxy) := proxy.SetNewNonce typeURI (c.newNonce w.clock)
  let w := { w with proxy := proxy, clock := w.clock + 1 }
  let subscribedResources := w.proxy.GetSubscribedResources typeURI
  let (resources, resourcesSent) :=
    resourcesToSend.foldl (marshalStep c typeURI subscribedResources) ([], Mapset.NewSet)
  let response : DiscoveryResponse A :=
    { TypeUrl := request.TypeUrl, VersionInfo := FormatUint version, Nonce := nonce,
      Resources := resources }
  match c.Send w.stream response with
  | (some err, stream) =>
    (some err,
      ({ w with stream := stream }.log (.Send response (some err))).log
        (.ProxyResponseSendErrorCount typeURI))
  | (none, stream) =>
    (none,
      ({ w with stream := stream, proxy := w.proxy.SetLastResourcesSent typeURI resourcesSent }.log
        (.Send response none)).log (.ProxyResponseSendSuccessCount typeURI))

/-- The local variables of `sendResponse` that live across loop iterations. -/
structure LoopState (R A τ : Type) where
  world : World R A τ
  thereWereErrors : Bool := false
  cacheResourceMap : ResourceMap R := fun _ => none

/-- The request used for `typeURI`: synthesized when `request == nil`, else the request. -/
def finalRequest (proxy : Proxy) (request : Option DiscoveryRequest) (typeURI : TypeURI) :
    DiscoveryRequest :=
  match request with
  | none =>
    { TypeUrl := typeURI
      ResourceNames := getResourceSliceFromMapset (proxy.GetSubscribedResources typeURI) }
  | some r => r

/-- The body of the loop over `typeURIsToSend` in `sendResponse`. -/
def sendResponseStep (s : Server R) (c : Collaborators R A τ) (request : Option DiscoveryRequest)
    (st : LoopState R A τ) (typeURI : TypeURI) : LoopState R A τ :=
  let finalReq := finalRequest st.world.proxy request typeURI
  let (result, w) := getTypeResources s c st.world finalReq
  let w := w.log (.generate typeURI finalReq result)
  match result with
  | .error _ => { st with world := w, thereWereErrors := true }
  | .ok resources =>
    if s.cacheEnabled then
      { st with
        world := w
        cacheResourceMap := Function.update st.cacheResourceMap typeURI (some resources) }
    else
      match SendDiscoveryResponse c (w.log (.respond typeURI finalReq resources)) finalReq
          resources with
      | (some _, w) => { st with world := w, thereWereErrors := true }
      | (none, w) => { st with world := w }

/-- The method `Server.sendResponse`; `request = none` is the `nil` request. -/
def sendResponse (s : Server R) (c : Collaborators R A τ) (w : World R A τ)
    (request : Option DiscoveryRequest) (typeURIsToSend : List TypeURI) :
    Option Error × World R A τ :=
  let st := typeURIsToSend.foldl (sendResponseStep s c request) { world := w }
  let st :=
    if s.cacheEnabled then
      match c.RecordFullSnapshot st.world.proxy st.cacheResourceMap with
      | some err =>
        { st with
          world := st.world.log (.RecordFullSnapshot st.cacheResourceMap (some err))
          thereWereErrors := true }
      | none => { st with world := st.world.log (.RecordFullSnapshot st.cacheResourceMap none) }
    else st
  let isFullUpdate := typeURIsToSend.length = c.XDSResponseOrderLen
  let w :=
    if isFullUpdate then st.world.log (.xdsPathTimeTrack c.TypeADS (!st.thereWereErrors))
    else st.world
  (none, w)

/-! ### Reading the call log -/

/-- The type of the response handed to the stream, for a `Send` event. -/
def Event.sendType? : Event R A → Option TypeURI
  | .Send response _ => some response.TypeUrl
  | _ => none

/-- The response handed to the stream, for a `Send` event. -/
def Event.response? : Event R A → Option (DiscoveryResponse A)
  | .Send response _ => some response
  | _ => none

/-- The error returned by the stream, for a `Send` event. -/
def Event.sendErr? : Event R A → Option (Option Error)
  | .Send _ err => some err
  | _ => none

/-- The type being processed and whether generation succeeded, for a `generate` event. -/
def Event.generation? : Event R A → Option (TypeURI × Bool)
  | .generate typeURI _ (.ok _) => some (typeURI, true)
  | .generate typeURI _ (.error _) => some (typeURI, false)
  | _ => none

/-- Whether the event is a call to the metrics store or to the debug log. -/
def Event.isMetric : Event R A → Bool
  | .trackXDSLog _ _ => true
  | .xdsPathTimeTrack _ _ => true
  | .ProxyResponseSendErrorCount _ => true
  | .ProxyResponseSendSuccessCount _ => true
  | _ => false

/-- The type being processed and the request handed over, for a `generate` or a `respond`
event. -/
def Event.handedRequest? : Event R A → Option (TypeURI × DiscoveryRequest)
  | .generate typeURI request _ => some (typeURI, request)
  | .respond typeURI request _ => some (typeURI, request)
  | _ => none

/-- The types for which a transport send was attempted, in order. -/
def sendTypes (trace : List (Event R A)) : List TypeURI := trace.filterMap Event.sendType?

/-- The responses handed to the stream, in order. -/
def sentResponses (trace : List (Event R A)) : List (DiscoveryResponse A) :=
  trace.filterMap Event.response?

/-- The errors returned by the stream's `Send`, in order. -/
def sendErrors (trace : List (Event R A)) : List (Option Error) := trace.filterMap Event.sendErr?

/-- The types for which generation was invoked, in order, each with whether it succeeded. -/
def generations (trace : List (Event R A)) : List (TypeURI × Bool) :=
  trace.filterMap Event.generation?

/-- The requests handed to generation and to the response builder, each with the batch type
being processed, in order. -/
def handedRequests (trace : List (Event R A)) : List (TypeURI × DiscoveryRequest) :=
  trace.filterMap Event.handedRequest?

/-- Whether serializing the resource fails. -/
def marshalFails (c : Collaborators R A τ) (res : R) : Bool :=
  match c.anypbNew res with
  | .error _ => true
  | .ok _ => false

/-- The serialized envelope of a resource, when serialization succeeds. -/
def marshalled? (c : Collaborators R A τ) (res : R) : Option A :=
  match c.anypbNew res with
  | .error _ => none
  | .ok proto => some proto

end Code

/-! ## Concrete inputs -/

namespace Demo

/-- A session whose version counters all stand at `version`, subscribed to the endpoint
resources `a` and `b`. -/
def proxy (version : Nat) : Proxy :=
  { name := "sidecar"
    lastSentVersion := fun _ => version
    lastNonce := fun _ => ""
    subscribedResources := fun t => if t = "EDS" then ["a", "b"] else []
    lastxDSResourcesSent := fun _ => [] }

/-- Handlers for clusters (one resource), endpoints (the requested resources, an unrequested
one and one that does not serialize) and listeners (always failing); no other type is
registered. -/
def server (cacheEnabled : Bool) : Server String :=
  { xdsHandlers := fun t =>
      if t = "CDS" then some (fun _ _ => .ok ["c1"])
      else if t = "EDS" then some (fun _ r => .ok (r.ResourceNames ++ ["zz", "bad"]))
      else if t = "LDS" then some (fun _ _ => .error (.other "no listeners"))
      else none
    cacheEnabled := cacheEnabled }

/-- Collaborators over string resources: `bad` does not serialize, the stream counts the calls
of `Send` and fails those selected by `failing`, clusters and listeners are wildcard types. -/
def collaborators (failing : Nat → Bool) : Collaborators String String Nat :=
  { anypbNew := fun r => if r = "bad" then .error (.other "marshal") else .ok ("any:" ++ r)
    GetResourceName := fun r => r
    IsWildcardTypeURI := fun t => t = "CDS" || t = "LDS"
    Send := fun n _ => (if failing n then some (.other "stream closed") else none, n + 1)
    RecordFullSnapshot := fun _ _ => none
    newNonce := fun n => toString n
    EnableDebugServer := false
    TypeADS := "ADS"
    XDSResponseOrderLen := 4 }

/-- The surroundings at the start of a call: no `Send` made yet, empty log. -/
def world (version : Nat) : World String String Nat :=
  { proxy := proxy version, stream := 0, clock := 0 }

end Demo

/-! ## Worker pool: properties -/

namespace Workerpool

/-- C9, as stated, fails: on linux/amd64, where a channel of `Job` holds at most `2^44 - 6`
elements, `NewWorkerPool(2^62)` panics in `make(chan Job, nWorkers)` and returns no pool, so
there is no worker number to read. -/
theorem NewWorkerPool_panics_for_large_count :
    (0 : Int) < 4611686018427387904 ∧
      (NewWorkerPool 8 17592186044410 4611686018427387904).map GetWorkerNumber = none := by
  decide

/-- C9, amended: `GetWorkerNumber` returns the configured worker count after zero-to-default
resolution whenever the constructor returns: for a positive `int` `n` within the largest
channel capacity of the host, `NewWorkerPool(n).GetWorkerNumber() = n`, and
`NewWorkerPool(0).GetWorkerNumber()` is the host's `GOMAXPROCS` value `P`; for a count above
that capacity `NewWorkerPool` panics. -/
theorem GetWorkerNumber_NewWorkerPool (P : Int) (maxChanCap : Nat) (n : Int) (hP : 0 < P)
    (hP64 : P < 2 ^ 63) (hPcap : P ≤ maxChanCap) (hn : 0 < n) (hn64 : n < 2 ^ 63)
    (hncap : n ≤ maxChanCap) :
    (NewWorkerPool P maxChanCap n).map GetWorkerNumber = some n ∧
      (NewWorkerPool P maxChanCap 0).map GetWorkerNumber = some P ∧
      ∀ m : Int, (maxChanCap : Int) < m → NewWorkerPool P maxChanCap m = none := by
  have key : ∀ m : Int, 0 < m → m < 2 ^ 63 → toInt (toUint64 m) = m := by
    intro m h0 h1
    unfold toInt toUint64
    have hm : m % 2 ^ 64 = m := Int.emod_eq_of_lt (by omega) (by omega)
    rw [hm]
    have h2 : m.toNat % 2 ^ 64 = m.toNat := Nat.mod_eq_of_lt (by omega)
    rw [h2]
    have h3 : m.toNat < 2 ^ 63 := by omega
    rw [if_pos h3]
    omega
  refine ⟨?_, ?_, ?_⟩
  · have h1 : ¬ n = 0 := by omega
    have h2 : ¬ (n < 0 ∨ (maxChanCap : Int) < n) := by omega
    simp only [NewWorkerPool, h1, if_false, h2, Option.map_some', GetWorkerNumber,
      key n hn hn64]
  · have h2 : ¬ (P < 0 ∨ (maxChanCap : Int) < P) := by omega
    simp only [NewWorkerPool, if_true, h2, if_false, Option.map_some', GetWorkerNumber,
      key P hP hP64]
  · intro m hm
    have h1 : ¬ m = 0 := by omega
    have h2 : m < 0 ∨ (maxChanCap : Int) < m := Or.inr hm
    simp only [NewWorkerPool, h1, if_false, h2, if_true]

/-- Witness of the amended C9 on a linux/amd64 host with 8 processors: pools of 25 workers
and of the default size. -/
theorem GetWorkerNumber_NewWorkerPool_witness :
    (NewWorkerPool 8 17592186044410 25).map GetWorkerNumber = some 25 ∧
      (NewWorkerPool 8 17592186044410 0).map GetWorkerNumber = some 8 :=
  ⟨(GetWorkerNumber_NewWorkerPool 8 17592186044410 25 (by decide) (by decide) (by decide)
      (by decide) (by decide) (by decide)).1,
    (GetWorkerNumber_NewWorkerPool 8 17592186044410 25 (by decide) (by decide) (by decide)
      (by decide) (by decide) (by decide)).2.1⟩

end Workerpool

/-! ## Decimal rendering -/

theorem digitChar_value (d : Nat) (hd : d < 10) : (Nat.digitChar d).toNat - 48 = d := by
  interval_cases d <;> rfl

theorem foldl_toDigitsCore (fuel n : Nat) (ds : List Char) (h : n < fuel) :
    (Nat.toDigitsCore 10 fuel n ds).foldl (fun n c => n * 10 + (c.toNat - 48)) 0 =
      ds.foldl (fun n c => n * 10 + (c.toNat - 48)) n := by
  induction fuel generalizing n ds with
  | zero => omega
  | succ fuel ih =>
    unfold Nat.toDigitsCore
    have hd : (Nat.digitChar (n % 10)).toNat - 48 = n % 10 :=
      digitChar_value _ (Nat.mod_lt _ (by decide))
    by_cases h0 : n / 10 = 0
    · simp only [h0, if_true, List.foldl_cons, hd]
      congr 1
      omega
    · simp only [h0, if_false]
      rw [ih (n / 10) _ (by omega), List.foldl_cons, hd]
      congr 1
      omega

/-- Reading back the decimal rendering of a number gives the number. -/
theorem ParseUint_FormatUint (n : Nat) : ParseUint (FormatUint n) = n := by
  unfold ParseUint FormatUint Nat.toDigits
  rw [foldl_toDigitsCore _ _ _ (Nat.lt_succ_self n)]
  rfl

/-! ## The response builder: properties -/

section Builder

variable {R A τ : Type}

theorem foldl_marshalStep_fst (c : Collaborators R A τ) (typeURI : TypeURI) (sub : Mapset)
    (l : List R) (acc : List A × Mapset) :
    (l.foldl (marshalStep c typeURI sub) acc).1 = acc.1 ++ l.filterMap (marshalled? c) := by
  induction l generalizing acc with
  | nil => simp
  | cons res rest ih =>
    rw [List.foldl_cons, ih]
    unfold marshalStep marshalled?
    cases h : c.anypbNew res with
    | error e => simp [h]
    | ok proto =>
      simp only [h, List.filterMap_cons]
      split_ifs <;> simp

theorem mem_Mapset_Add (s : Mapset) (x y : String) : y ∈ s.Add x ↔ y ∈ s ∨ y = x := by
  unfold Mapset.Add
  split_ifs with h
  · constructor
    · intro hy; exact Or.inl hy
    · rintro (hy | rfl)
      · exact hy
      · exact h
  · simp

theorem foldl_marshalStep_snd (c : Collaborators R A τ) (typeURI : TypeURI) (sub : Mapset)
    (l : List R) (acc : List A × Mapset) (x : String) :
    x ∈ (l.foldl (marshalStep c typeURI sub) acc).2 ↔
      x ∈ acc.2 ∨ (c.IsWildcardTypeURI typeURI = false ∧ x ∈ sub ∧
        ∃ res ∈ l, marshalFails c res = false ∧ c.GetResourceName res = x) := by
  induction l generalizing acc with
  | nil => simp
  | cons res rest ih =>
    rw [List.foldl_cons, ih]
    unfold marshalStep marshalFails
    cases h : c.anypbNew res with
    | error e =>
      simp only [h, List.mem_cons, exists_eq_or_imp]
      simp
    | ok proto =>
      cases hw : c.IsWildcardTypeURI typeURI with
      | true => simp [h]
      | false =>
        by_cases hs : c.GetResourceName res ∈ sub
        · simp only [h, Bool.not_false, if_true, Mapset.Contains, hs, decide_True,
            mem_Mapset_Add, List.mem_cons, exists_eq_or_imp, true_and]
          constructor
          · rintro ((h1 | h1) | h1)
            · exact Or.inl h1
            · exact Or.inr ⟨h1 ▸ hs, Or.inl h1.symm⟩
            · exact Or.inr ⟨h1.1, Or.inr h1.2⟩
          · rintro (h1 | ⟨h1, h2 | h2⟩)
            · exact Or.inl (Or.inl h1)
            · exact Or.inl (Or.inr h2.symm)
            · exact Or.inr ⟨h1, h2⟩
        · simp only [h, Bool.not_false, if_true, Mapset.Contains, hs, decide_False,
            List.mem_cons, exists_eq_or_imp, true_and]
          constructor
          · rintro (h1 | h1)
            · exact Or.inl h1
            · exact Or.inr ⟨h1.1, Or.inr h1.2⟩
          · rintro (h1 | ⟨h1, h2 | h2⟩)
            · exact Or.inl h1
            · exact absurd (h2 ▸ h1) hs
            · exact Or.inr ⟨h1, h2⟩

theorem foldl_marshalStep_wildcard (c : Collaborators R A τ) (typeURI : TypeURI) (sub : Mapset)
    (hw : c.IsWildcardTypeURI typeURI = true) (l : List R) (acc : List A × Mapset) :
    (l.foldl (marshalStep c typeURI sub) acc).2 = acc.2 := by
  induction l generalizing acc with
  | nil => simp
  | cons res rest ih =>
    rw [List.foldl_cons, ih]
    unfold marshalStep
    cases h : c.anypbNew res <;> simp [hw]

theorem length_filterMap_marshalled (c : Collaborators R A τ) (l : List R) :
    (l.filterMap (marshalled? c)).length = l.length - l.countP (marshalFails c) := by
  induction l with
  | nil => simp
  | cons res rest ih =>
    have hle : rest.countP (marshalFails c) ≤ rest.length := List.countP_le_length _
    unfold marshalled? marshalFails at *
    cases h : c.anypbNew res with
    | error e =>
      simp only [List.filterMap_cons, h, List.countP_cons, List.length_cons, if_true]
      omega
    | ok proto =>
      simp only [List.filterMap_cons, h, List.countP_cons, List.length_cons]
      simp only [Bool.false_eq_true, if_false]
      omega

/-- The response that `SendDiscoveryResponse` builds. -/
theorem SendDiscoveryResponse_trace (c : Collaborators R A τ) (w : World R A τ)
    (request : DiscoveryRequest) (resourcesToSend : List R) :
    ∃ err counter,
      (SendDiscoveryResponse c w request resourcesToSend).1 = err ∧
      (c.Send w.stream
        { TypeUrl := request.TypeUrl
          VersionInfo := FormatUint ((w.proxy.lastSentVersion request.TypeUrl + 1) % 2 ^ 64)
          Nonce := c.newNonce w.clock
          Resources := resourcesToSend.filterMap (marshalled? c) }).1 = err ∧
      (counter = Event.ProxyResponseSendErrorCount request.TypeUrl ∨
        counter = Event.ProxyResponseSendSuccessCount request.TypeUrl) ∧
      (SendDiscoveryResponse c w request resourcesToSend).2.trace =
        w.trace ++
          [.Send
            { TypeUrl := request.TypeUrl
              VersionInfo := FormatUint ((w.proxy.lastSentVersion request.TypeUrl + 1) % 2 ^ 64)
              Nonce := c.newNonce w.clock
              Resources := resourcesToSend.filterMap (marshalled? c) } err, counter] := by
  simp only [SendDiscoveryResponse, Proxy.IncrementLastSentVersion, Proxy.SetNewNonce,
    Proxy.GetSubscribedResources, foldl_marshalStep_fst, List.nil_append]
  split
  · next err stream h =>
    refine ⟨some err, _, rfl, by rw [h], Or.inl rfl, ?_⟩
    simp [World.log]
  · next stream h =>
    refine ⟨none, _, rfl, by rw [h], Or.inr rfl, ?_⟩
    simp [World.log]

end Builder

section BuilderClaims

variable {R A τ : Type}

theorem SendDiscoveryResponse_proxy (c : Collaborators R A τ) (w : World R A τ)
    (request : DiscoveryRequest) (resourcesToSend : List R) :
    (SendDiscoveryResponse c w request resourcesToSend).2.proxy.subscribedResources =
        w.proxy.subscribedResources ∧
      (SendDiscoveryResponse c w request resourcesToSend).2.proxy.lastSentVersion =
        Function.update w.proxy.lastSentVersion request.TypeUrl
          ((w.proxy.lastSentVersion request.TypeUrl + 1) % 2 ^ 64) ∧
      (SendDiscoveryResponse c w request resourcesToSend).2.proxy.lastNonce =
        Function.update w.proxy.lastNonce request.TypeUrl (c.newNonce w.clock) ∧
      ((SendDiscoveryResponse c w request resourcesToSend).1 ≠ none →
        (SendDiscoveryResponse c w request resourcesToSend).2.proxy.lastxDSResourcesSent =
          w.proxy.lastxDSResourcesSent) ∧
      ((SendDiscoveryResponse c w request resourcesToSend).1 = none →
        (SendDiscoveryResponse c w request resourcesToSend).2.proxy.lastxDSResourcesSent =
          Function.update w.proxy.lastxDSResourcesSent request.TypeUrl
            (resourcesToSend.foldl
              (marshalStep c request.TypeUrl (w.proxy.subscribedResources request.TypeUrl))
              ([], Mapset.NewSet)).2) := by
  simp only [SendDiscoveryResponse, Proxy.IncrementLastSentVersion, Proxy.SetNewNonce,
    Proxy.GetSubscribedResources, Proxy.SetLastResourcesSent]
  split <;> simp [World.log]

/-- C5: the resource list of the transmitted response holds the serialized envelopes of
exactly the input resources that serialize without error, in input order; its length is the
input length minus the number of serialization failures; and whatever fails to serialize, one
response is handed to the stream. -/
theorem SendDiscoveryResponse_resources (c : Collaborators R A τ) (w : World R A τ)
    (request : DiscoveryRequest) (resourcesToSend : List R) :
    ∃ response : DiscoveryResponse A,
      sentResponses (SendDiscoveryResponse c w request resourcesToSend).2.trace =
        sentResponses w.trace ++ [response] ∧
      response.Resources = resourcesToSend.filterMap (marshalled? c) ∧
      response.Resources.length =
        resourcesToSend.length - resourcesToSend.countP (marshalFails c) := by
  obtain ⟨err, counter, -, -, hc, ht⟩ := SendDiscoveryResponse_trace c w request resourcesToSend
  refine ⟨{ TypeUrl := request.TypeUrl
            VersionInfo := FormatUint ((w.proxy.lastSentVersion request.TypeUrl + 1) % 2 ^ 64)
            Nonce := c.newNonce w.clock
            Resources := resourcesToSend.filterMap (marshalled? c) }, ?_, rfl,
    length_filterMap_marshalled c resourcesToSend⟩
  rw [ht]
  rcases hc with rfl | rfl <;>
    simp [sentResponses, List.filterMap_append, Event.response?]

/-- C3: after a successful `SendDiscoveryResponse` the last-sent set of the request's type
is, for a named-subscription type, exactly the names of the successfully serialized resources
that are in the subscribed set, hence a subset of the subscribed set, and for a wildcard
type the empty set. The subscribed set itself is left as it was. -/
theorem SendDiscoveryResponse_lastSent (c : Collaborators R A τ) (w : World R A τ)
    (request : DiscoveryRequest) (resourcesToSend : List R)
    (hok : (SendDiscoveryResponse c w request resourcesToSend).1 = none) :
    (SendDiscoveryResponse c w request resourcesToSend).2.proxy.subscribedResources =
        w.proxy.subscribedResources ∧
      (c.IsWildcardTypeURI request.TypeUrl = false →
        (∀ x, x ∈ (SendDiscoveryResponse c w request resourcesToSend).2.proxy.lastxDSResourcesSent
              request.TypeUrl ↔
            x ∈ w.proxy.subscribedResources request.TypeUrl ∧
              ∃ res ∈ resourcesToSend, marshalFails c res = false ∧ c.GetResourceName res = x) ∧
        (SendDiscoveryResponse c w request resourcesToSend).2.proxy.lastxDSResourcesSent
            request.TypeUrl ⊆
          (SendDiscoveryResponse c w request resourcesToSend).2.proxy.subscribedResources
            request.TypeUrl) ∧
      (c.IsWildcardTypeURI request.TypeUrl = true →
        (SendDiscoveryResponse c w request resourcesToSend).2.proxy.lastxDSResourcesSent
          request.TypeUrl = []) := by
  obtain ⟨hsub, -, -, -, hsent⟩ := SendDiscoveryResponse_proxy c w request resourcesToSend
  have hs := hsent hok
  refine ⟨hsub, ?_, ?_⟩
  · intro hw
    have key : ∀ x, x ∈ (SendDiscoveryResponse c w request resourcesToSend).2.proxy.lastxDSResourcesSent
              request.TypeUrl ↔
            x ∈ w.proxy.subscribedResources request.TypeUrl ∧
              ∃ res ∈ resourcesToSend, marshalFails c res = false ∧ c.GetResourceName res = x := by
      intro x
      rw [hs, Function.update_same, foldl_marshalStep_snd]
      simp [hw, Mapset.NewSet]
    refine ⟨key, ?_⟩
    intro x hx
    rw [hsub]
    exact ((key x).1 hx).1
  · intro hw
    rw [hs, Function.update_same, foldl_marshalStep_wildcard c _ _ hw]
    rfl

/-- Witness of C3: a successful endpoint response for `a`, `zz` and `bad` to a session
subscribed to `a` and `b` leaves `a` as the last-sent set. -/
theorem SendDiscoveryResponse_lastSent_witness :
    (SendDiscoveryResponse (Demo.collaborators fun _ => false) (Demo.world 0)
        { TypeUrl := "EDS" } ["a", "zz", "bad"]).1 = none ∧
      (SendDiscoveryResponse (Demo.collaborators fun _ => false) (Demo.world 0)
        { TypeUrl := "EDS" } ["a", "zz", "bad"]).2.proxy.lastxDSResourcesSent "EDS" ⊆
      (SendDiscoveryResponse (Demo.collaborators fun _ => false) (Demo.world 0)
        { TypeUrl := "EDS" } ["a", "zz", "bad"]).2.proxy.subscribedResources "EDS" :=
  ⟨by decide,
    ((SendDiscoveryResponse_lastSent (Demo.collaborators fun _ => false) (Demo.world 0)
      { TypeUrl := "EDS" } ["a", "zz", "bad"] (by decide)).2.1 (by decide)).2⟩

/-- C8, as stated, fails: with the counter of `EDS` at 0 and a stream whose `Send` fails,
`SendDiscoveryResponse` returns the error, yet the counter is 1 and the nonce is new after
the call. -/
theorem SendDiscoveryResponse_failed_send_changes_session :
    sendErrors (SendDiscoveryResponse (Demo.collaborators fun _ => true) (Demo.world 0)
        { TypeUrl := "EDS" } ["a"]).2.trace = [some (.other "stream closed")] ∧
      (SendDiscoveryResponse (Demo.collaborators fun _ => true) (Demo.world 0)
        { TypeUrl := "EDS" } ["a"]).1 = some (.other "stream closed") ∧
      (Demo.world 0).proxy.lastSentVersion "EDS" = 0 ∧
      (SendDiscoveryResponse (Demo.collaborators fun _ => true) (Demo.world 0)
        { TypeUrl := "EDS" } ["a"]).2.proxy.lastSentVersion "EDS" = 1 ∧
      (Demo.world 0).proxy.lastNonce "EDS" = "" ∧
      (SendDiscoveryResponse (Demo.collaborators fun _ => true) (Demo.world 0)
        { TypeUrl := "EDS" } ["a"]).2.proxy.lastNonce "EDS" = "0" := by
  decide

/-- C8, amended: when the stream's `Send` returns an error, `SendDiscoveryResponse` returns
that error and the last-sent sets and the subscribed sets of the session are the same after
the call as before it; the version counter of the request's type has been incremented and
its nonce replaced all the same. -/
theorem SendDiscoveryResponse_failed_send (c : Collaborators R A τ) (w : World R A τ)
    (request : DiscoveryRequest) (resourcesToSend : List R) (err : Error)
    (hsend : sendErrors (SendDiscoveryResponse c w request resourcesToSend).2.trace =
      sendErrors w.trace ++ [some err]) :
    (SendDiscoveryResponse c w request resourcesToSend).1 = some err ∧
      (SendDiscoveryResponse c w request resourcesToSend).2.proxy.lastxDSResourcesSent =
        w.proxy.lastxDSResourcesSent ∧
      (SendDiscoveryResponse c w request resourcesToSend).2.proxy.subscribedResources =
        w.proxy.subscribedResources ∧
      (SendDiscoveryResponse c w request resourcesToSend).2.proxy.lastSentVersion =
        Function.update w.proxy.lastSentVersion request.TypeUrl
          ((w.proxy.lastSentVersion request.TypeUrl + 1) % 2 ^ 64) ∧
      (SendDiscoveryResponse c w request resourcesToSend).2.proxy.lastNonce =
        Function.update w.proxy.lastNonce request.TypeUrl (c.newNonce w.clock) := by
  obtain ⟨e, counter, he, -, hc, ht⟩ := SendDiscoveryResponse_trace c w request resourcesToSend
  obtain ⟨hsub, hver, hnonce, hkeep, -⟩ :=
    SendDiscoveryResponse_proxy c w request resourcesToSend
  have hret : (SendDiscoveryResponse c w request resourcesToSend).1 = some err := by
    rw [ht] at hsend
    have h2 : sendErrors (w.trace ++ [Event.Send
        { TypeUrl := request.TypeUrl
          VersionInfo := FormatUint ((w.proxy.lastSentVersion request.TypeUrl + 1) % 2 ^ 64)
          Nonce := c.newNonce w.clock
          Resources := resourcesToSend.filterMap (marshalled? c) } e, counter]) =
        sendErrors w.trace ++ [e] := by
      rcases hc with rfl | rfl <;>
        simp [sendErrors, List.filterMap_append, Event.sendErr?]
    rw [h2] at hsend
    have h3 := List.append_cancel_left hsend
    rw [he]
    simpa using h3
  exact ⟨hret, hkeep (by rw [hret]; simp), hsub, hver, hnonce⟩

/-- Witness of the amended C8: a failing `Send` on an endpoint response. -/
theorem SendDiscoveryResponse_failed_send_witness :
    (SendDiscoveryResponse (Demo.collaborators fun _ => true) (Demo.world 0)
        { TypeUrl := "EDS" } ["a"]).1 = some (.other "stream closed") ∧
      (SendDiscoveryResponse (Demo.collaborators fun _ => true) (Demo.world 0)
        { TypeUrl := "EDS" } ["a"]).2.proxy.lastxDSResourcesSent =
        (Demo.world 0).proxy.lastxDSResourcesSent :=
  ⟨(SendDiscoveryResponse_failed_send (Demo.collaborators fun _ => true) (Demo.world 0)
      { TypeUrl := "EDS" } ["a"] (.other "stream closed") (by decide)).1,
    (SendDiscoveryResponse_failed_send (Demo.collaborators fun _ => true) (Demo.world 0)
      { TypeUrl := "EDS" } ["a"] (.other "stream closed") (by decide)).2.1⟩

/-- C4, as stated, fails: with the counter of `EDS` at `2^64 - 2`, two consecutive successful
calls send the versions `18446744073709551615` and then `0`. -/
theorem SendDiscoveryResponse_version_wraps :
    (SendDiscoveryResponse (Demo.collaborators fun _ => false)
        (Demo.world 18446744073709551614) { TypeUrl := "EDS" } ["a"]).1 = none ∧
      (SendDiscoveryResponse (Demo.collaborators fun _ => false)
        (SendDiscoveryResponse (Demo.collaborators fun _ => false)
          (Demo.world 18446744073709551614) { TypeUrl := "EDS" } ["a"]).2
        { TypeUrl := "EDS" } ["a"]).1 = none ∧
      (sentResponses (SendDiscoveryResponse (Demo.collaborators fun _ => false)
        (SendDiscoveryResponse (Demo.collaborators fun _ => false)
          (Demo.world 18446744073709551614) { TypeUrl := "EDS" } ["a"]).2
        { TypeUrl := "EDS" } ["a"]).2.trace).map (fun r => ParseUint r.VersionInfo) =
        [18446744073709551615, 0] := by
  decide

/-- C4, amended: two consecutive calls of `SendDiscoveryResponse` for one session and type,
successful or not, hand to the stream responses whose `VersionInfo`, read as a decimal
number, is strictly greater in the second than in the first, unless the counter stood at
`2^64 - 2` before the first call (the counter is a `uint64` and the second increment then
wraps to 0). The first `VersionInfo` is the decimal rendering of the incremented counter. -/
theorem SendDiscoveryResponse_version_increases (c : Collaborators R A τ) (w : World R A τ)
    (request₁ request₂ : DiscoveryRequest) (resources₁ resources₂ : List R)
    (htype : request₂.TypeUrl = request₁.TypeUrl)
    (hwrap : w.proxy.lastSentVersion request₁.TypeUrl % 2 ^ 64 ≠ 2 ^ 64 - 2) :
    ∃ first second : DiscoveryResponse A,
      sentResponses (SendDiscoveryResponse c (SendDiscoveryResponse c w request₁ resources₁).2
        request₂ resources₂).2.trace = sentResponses w.trace ++ [first, second] ∧
      first.VersionInfo =
        FormatUint ((w.proxy.lastSentVersion request₁.TypeUrl + 1) % 2 ^ 64) ∧
      ParseUint first.VersionInfo < ParseUint second.VersionInfo := by
  obtain ⟨e₁, k₁, -, -, hk₁, ht₁⟩ := SendDiscoveryResponse_trace c w request₁ resources₁
  obtain ⟨e₂, k₂, -, -, hk₂, ht₂⟩ :=
    SendDiscoveryResponse_trace c (SendDiscoveryResponse c w request₁ resources₁).2 request₂
      resources₂
  obtain ⟨-, hver, -, -, -⟩ := SendDiscoveryResponse_proxy c w request₁ resources₁
  refine ⟨{ TypeUrl := request₁.TypeUrl
            VersionInfo := FormatUint ((w.proxy.lastSentVersion request₁.TypeUrl + 1) % 2 ^ 64)
            Nonce := c.newNonce w.clock
            Resources := resources₁.filterMap (marshalled? c) },
          { TypeUrl := request₂.TypeUrl
            VersionInfo := FormatUint
              (((SendDiscoveryResponse c w request₁ resources₁).2.proxy.lastSentVersion
                request₂.TypeUrl + 1) % 2 ^ 64)
            Nonce := c.newNonce (SendDiscoveryResponse c w request₁ resources₁).2.clock
            Resources := resources₂.filterMap (marshalled? c) }, ?_, rfl, ?_⟩
  · rw [ht₂, ht₁]
    rcases hk₁ with rfl | rfl <;> rcases hk₂ with rfl | rfl <;>
      simp [sentResponses, List.filterMap_append, Event.response?]
  · simp only [ParseUint_FormatUint]
    rw [hver, htype, Function.update_same]
    omega

/-- Witness of the amended C4: from a counter at 0 the versions sent are 1 and 2. -/
theorem SendDiscoveryResponse_version_increases_witness :
    ∃ first second : DiscoveryResponse String,
      sentResponses (SendDiscoveryResponse (Demo.collaborators fun _ => false)
        (SendDiscoveryResponse (Demo.collaborators fun _ => false) (Demo.world 0)
          { TypeUrl := "EDS" } ["a"]).2 { TypeUrl := "EDS" } ["b"]).2.trace =
        sentResponses (Demo.world 0).trace ++ [first, second] ∧
      first.VersionInfo = FormatUint (((Demo.world 0).proxy.lastSentVersion "EDS" + 1) % 2 ^ 64) ∧
      ParseUint first.VersionInfo < ParseUint second.VersionInfo :=
  SendDiscoveryResponse_version_increases (Demo.collaborators fun _ => false) (Demo.world 0)
    { TypeUrl := "EDS" } { TypeUrl := "EDS" } ["a"] ["b"] rfl (by decide)

end BuilderClaims

/-! ## The dispatcher: properties -/

section Dispatcher

variable {R A τ : Type}

theorem filterMap_metric {β : Type} (f : Event R A → Option β)
    (hf : ∀ e, e.isMetric = true → f e = none) (ms : List (Event R A))
    (hms : ∀ e ∈ ms, e.isMetric = true) : ms.filterMap f = [] := by
  rw [List.filterMap_eq_nil_iff]
  intro e he
  exact hf e (hms e he)

theorem sendType?_metric (e : Event R A) (h : e.isMetric = true) : e.sendType? = none := by
  cases e <;> simp_all [Event.isMetric, Event.sendType?]

theorem generation?_metric (e : Event R A) (h : e.isMetric = true) : e.generation? = none := by
  cases e <;> simp_all [Event.isMetric, Event.generation?]

theorem handedRequest?_metric (e : Event R A) (h : e.isMetric = true) :
    e.handedRequest? = none := by
  cases e <;> simp_all [Event.isMetric, Event.handedRequest?]

theorem debug_proxy (b : Bool) (w : World R A τ) (e : Event R A) :
    (if b = true then w.log e else w).proxy = w.proxy := by
  cases b <;> rfl

/-- The call `getTypeResources` leaves the proxy and the stream alone and only calls the metrics store
and the debug log. -/
theorem getTypeResources_world (s : Server R) (c : Collaborators R A τ) (w : World R A τ)
    (request : DiscoveryRequest) :
    ∃ ms : List (Event R A), (∀ e ∈ ms, e.isMetric = true) ∧
      (getTypeResources s c w request).2 = { w with trace := w.trace ++ ms } := by
  simp only [getTypeResources, debug_proxy]
  split
  · exact ⟨[], by simp, by simp⟩
  · cases hd : c.EnableDebugServer
    · split
      · exact ⟨[.xdsPathTimeTrack request.TypeUrl false], by simp [Event.isMetric],
          by simp [World.log]⟩
      · exact ⟨[.xdsPathTimeTrack request.TypeUrl true], by simp [Event.isMetric],
          by simp [World.log]⟩
    · split
      · exact ⟨[.trackXDSLog w.proxy.name request.TypeUrl,
            .xdsPathTimeTrack request.TypeUrl false],
          by simp [Event.isMetric], by simp [World.log]⟩
      · exact ⟨[.trackXDSLog w.proxy.name request.TypeUrl,
            .xdsPathTimeTrack request.TypeUrl true],
          by simp [Event.isMetric], by simp [World.log]⟩

/-- The result of `getTypeResources`: resources exactly when a handler is registered for the
request's type and it returns no error. -/
theorem getTypeResources_result (s : Server R) (c : Collaborators R A τ) (w : World R A τ)
    (request : DiscoveryRequest) (resources : List R) :
    (getTypeResources s c w request).1 = .ok resources ↔
      ∃ handler, s.xdsHandlers request.TypeUrl = some handler ∧
        handler w.proxy request = .ok resources := by
  simp only [getTypeResources, debug_proxy]
  split
  · next hh => simp [hh]
  · next handler hh =>
    split
    · next e hr => simp [hh, hr]
    · next rs hr => simp [hh, hr]

theorem SendDiscoveryResponse_out (c : Collaborators R A τ) (w : World R A τ)
    (request : DiscoveryRequest) (resourcesToSend : List R) (err : Option Error)
    (w' : World R A τ) (h : SendDiscoveryResponse c w request resourcesToSend = (err, w')) :
    ∃ counter : Event R A, counter.isMetric = true ∧
      w'.trace = w.trace ++
        [.Send
          { TypeUrl := request.TypeUrl
            VersionInfo := FormatUint ((w.proxy.lastSentVersion request.TypeUrl + 1) % 2 ^ 64)
            Nonce := c.newNonce w.clock
            Resources := resourcesToSend.filterMap (marshalled? c) } err, counter] ∧
      w'.proxy.subscribedResources = w.proxy.subscribedResources := by
  obtain ⟨e, counter, he, -, hk, ht⟩ := SendDiscoveryResponse_trace c w request resourcesToSend
  obtain ⟨hsub, -, -, -, -⟩ := SendDiscoveryResponse_proxy c w request resourcesToSend
  rw [h] at he ht hsub
  subst he
  refine ⟨counter, ?_, ht, hsub⟩
  rcases hk with rfl | rfl <;> rfl

/-- What one iteration of the loop of `sendResponse` does, by the three ways through its
body: generation fails; generation succeeds in snapshot mode; generation succeeds in
immediate mode. -/
theorem sendResponseStep_spec (s : Server R) (c : Collaborators R A τ)
    (request : Option DiscoveryRequest) (st : LoopState R A τ) (t : TypeURI) :
    ∃ ms : List (Event R A), (∀ e ∈ ms, e.isMetric = true) ∧
      ((∃ err,
          (getTypeResources s c st.world (finalRequest st.world.proxy request t)).1 =
            .error err ∧
          (sendResponseStep s c request st t).world =
            { st.world with
              trace := st.world.trace ++ ms ++
                [.generate t (finalRequest st.world.proxy request t) (.error err)] } ∧
          (sendResponseStep s c request st t).cacheResourceMap = st.cacheResourceMap) ∨
        (∃ rs,
          (getTypeResources s c st.world (finalRequest st.world.proxy request t)).1 = .ok rs ∧
          s.cacheEnabled = true ∧
          (sendResponseStep s c request st t).world =
            { st.world with
              trace := st.world.trace ++ ms ++
                [.generate t (finalRequest st.world.proxy request t) (.ok rs)] } ∧
          (sendResponseStep s c request st t).cacheResourceMap =
            Function.update st.cacheResourceMap t (some rs)) ∨
        (∃ rs response err counter,
          (getTypeResources s c st.world (finalRequest st.world.proxy request t)).1 = .ok rs ∧
          s.cacheEnabled = false ∧ counter.isMetric = true ∧
          response.TypeUrl = (finalRequest st.world.proxy request t).TypeUrl ∧
          (sendResponseStep s c request st t).world.trace =
            st.world.trace ++ ms ++
              [.generate t (finalRequest st.world.proxy request t) (.ok rs),
                .respond t (finalRequest st.world.proxy request t) rs,
                .Send response err, counter] ∧
          (sendResponseStep s c request st t).world.proxy.subscribedResources =
            st.world.proxy.subscribedResources ∧
          (sendResponseStep s c request st t).cacheResourceMap = st.cacheResourceMap)) := by
  obtain ⟨ms, hms, hw⟩ :=
    getTypeResources_world s c st.world (finalRequest st.world.proxy request t)
  refine ⟨ms, hms, ?_⟩
  simp only [sendResponseStep]
  rw [hw]
  cases hg : (getTypeResources s c st.world (finalRequest st.world.proxy request t)).1 with
  | error err =>
    left
    exact ⟨err, rfl, by simp [World.log], rfl⟩
  | ok rs =>
    right
    cases hc : s.cacheEnabled with
    | true =>
      left
      exact ⟨rs, rfl, rfl, by simp [World.log], by simp⟩
    | false =>
      right
      simp only [Bool.false_eq_true, if_false]
      obtain ⟨⟨e, w'⟩, hx⟩ : ∃ x, SendDiscoveryResponse c
          ((({ proxy := st.world.proxy, stream := st.world.stream, clock := st.world.clock,
                trace := st.world.trace ++ ms } : World R A τ).log
            (.generate t (finalRequest st.world.proxy request t) (.ok rs))).log
            (.respond t (finalRequest st.world.proxy request t) rs))
          (finalRequest st.world.proxy request t) rs = x := ⟨_, rfl⟩
      obtain ⟨counter, hmetric, ht, hsub⟩ := SendDiscoveryResponse_out c _ _ _ e w' hx
      rw [hx]
      refine ⟨rs, { TypeUrl := (finalRequest st.world.proxy request t).TypeUrl
                    VersionInfo := FormatUint
                      ((st.world.proxy.lastSentVersion
                        (finalRequest st.world.proxy request t).TypeUrl + 1) % 2 ^ 64)
                    Nonce := c.newNonce st.world.clock
                    Resources := rs.filterMap (marshalled? c) },
        e, counter, rfl, trivial, hmetric, rfl, ?_, ?_, ?_⟩
      · cases e <;> simpa [World.log] using ht
      · cases e <;> simpa [World.log] using hsub
      · cases e <;> rfl

theorem generations_append (a b : List (Event R A)) :
    generations (a ++ b) = generations a ++ generations b :=
  List.filterMap_append _ _ _

theorem sendTypes_append (a b : List (Event R A)) :
    sendTypes (a ++ b) = sendTypes a ++ sendTypes b :=
  List.filterMap_append _ _ _

theorem handedRequests_append (a b : List (Event R A)) :
    handedRequests (a ++ b) = handedRequests a ++ handedRequests b :=
  List.filterMap_append _ _ _

/-- The loop of `sendResponse` in immediate mode with no incoming request: the events it
appends. -/
theorem loop_immediate (s : Server R) (c : Collaborators R A τ) (hc : s.cacheEnabled = false)
    (batch : List TypeURI) (st : LoopState R A τ) :
    ∃ evs : List (Event R A),
      (batch.foldl (sendResponseStep s c none) st).world.trace = st.world.trace ++ evs ∧
      (generations evs).map Prod.fst = batch ∧
      sendTypes evs = ((generations evs).filter Prod.snd).map Prod.fst := by
  induction batch generalizing st with
  | nil => exact ⟨[], by simp, rfl, rfl⟩
  | cons t ts ih =>
    rw [List.foldl_cons]
    obtain ⟨evs, h1, h2, h3⟩ := ih (sendResponseStep s c none st t)
    obtain ⟨ms, hms, hstep⟩ := sendResponseStep_spec s c none st t
    have hm1 : generations ms = [] := filterMap_metric _ generation?_metric ms hms
    have hm2 : sendTypes ms = [] := filterMap_metric _ sendType?_metric ms hms
    rcases hstep with ⟨err, -, hw, -⟩ | ⟨rs, -, hce, -, -⟩ |
      ⟨rs, resp, e, counter, -, -, hk, hty, htr, -, -⟩
    · refine ⟨ms ++ [.generate t (finalRequest st.world.proxy none t) (.error err)] ++ evs,
        ?_, ?_, ?_⟩
      · rw [h1, hw]; simp
      · rw [generations_append, generations_append, hm1]
        simpa [generations, Event.generation?] using h2
      · rw [generations_append, generations_append, sendTypes_append, sendTypes_append, hm1,
          hm2, h3]
        simp [generations, sendTypes, Event.generation?, Event.sendType?]
    · rw [hc] at hce; exact absurd hce (by decide)
    · have hk2 : generations [counter] = [] :=
        filterMap_metric _ generation?_metric [counter] (by simpa using hk)
      have hk3 : sendTypes [counter] = [] :=
        filterMap_metric _ sendType?_metric [counter] (by simpa using hk)
      refine ⟨ms ++ ([.generate t (finalRequest st.world.proxy none t) (.ok rs),
          .respond t (finalRequest st.world.proxy none t) rs, .Send resp e] ++ [counter]) ++ evs,
        ?_, ?_, ?_⟩
      · rw [h1, htr]; simp
      · rw [generations_append, generations_append, generations_append, hm1, hk2]
        simpa [generations, Event.generation?] using h2
      · rw [generations_append, generations_append, generations_append, sendTypes_append,
          sendTypes_append, sendTypes_append, hm1, hm2, hk2, hk3, h3]
        simp [generations, sendTypes, Event.generation?, Event.sendType?, hty, finalRequest]

/-- C1: in immediate mode with no incoming request, generation is invoked once for every
type of the batch, in the supplied order, whatever fails before, and the types of the
responses handed to the stream are the batch types whose generation succeeded, in order:
none for a type whose generation fails or that has no handler, one for every other type.
Generation succeeds exactly when a handler is registered for the type and returns no
error. -/
theorem sendResponse_immediate (s : Server R) (c : Collaborators R A τ)
    (hc : s.cacheEnabled = false) (proxy : Proxy) (stream : τ) (clock : Nat)
    (batch : List TypeURI) :
    (generations (sendResponse s c { proxy := proxy, stream := stream, clock := clock } none
        batch).2.trace).map Prod.fst = batch ∧
      sendTypes (sendResponse s c { proxy := proxy, stream := stream, clock := clock } none
        batch).2.trace =
        ((generations (sendResponse s c { proxy := proxy, stream := stream, clock := clock }
          none batch).2.trace).filter Prod.snd).map Prod.fst ∧
      ∀ (w : World R A τ) (request : DiscoveryRequest) (resources : List R),
        (getTypeResources s c w request).1 = .ok resources ↔
          ∃ handler, s.xdsHandlers request.TypeUrl = some handler ∧
            handler w.proxy request = .ok resources := by
  obtain ⟨evs, h1, h2, h3⟩ := loop_immediate s c hc batch
    { world := { proxy := proxy, stream := stream, clock := clock } }
  have htrace : ∃ post : List (Event R A), (∀ e ∈ post, e.isMetric = true) ∧
      (sendResponse s c { proxy := proxy, stream := stream, clock := clock } none
        batch).2.trace = evs ++ post := by
    simp only [sendResponse, hc, Bool.false_eq_true, if_false]
    split
    · exact ⟨[.xdsPathTimeTrack c.TypeADS
          (!(batch.foldl (sendResponseStep s c none)
            { world := { proxy := proxy, stream := stream, clock := clock } }).thereWereErrors)],
        by simp [Event.isMetric], by simp [World.log, h1]⟩
    · exact ⟨[], by simp, by simp [h1]⟩
  obtain ⟨post, hpost, ht⟩ := htrace
  have hp1 : generations post = [] := filterMap_metric _ generation?_metric post hpost
  have hp2 : sendTypes post = [] := filterMap_metric _ sendType?_metric post hpost
  rw [ht, generations_append, sendTypes_append, hp1, hp2]
  simp only [List.append_nil]
  exact ⟨h2, h3, getTypeResources_result s c⟩

theorem finalRequest_congr (p p' : Proxy) (request : Option DiscoveryRequest) (t : TypeURI)
    (h : p'.subscribedResources = p.subscribedResources) :
    finalRequest p' request t = finalRequest p request t := by
  cases request <;> simp [finalRequest, Proxy.GetSubscribedResources, h]

/-- The loop of `sendResponse`, in either mode: the requests it hands over. -/
theorem loop_requests (s : Server R) (c : Collaborators R A τ)
    (request : Option DiscoveryRequest) (batch : List TypeURI) (st : LoopState R A τ) :
    ∃ evs : List (Event R A),
      (batch.foldl (sendResponseStep s c request) st).world.trace = st.world.trace ++ evs ∧
      (batch.foldl (sendResponseStep s c request) st).world.proxy.subscribedResources =
        st.world.proxy.subscribedResources ∧
      (∀ T ∈ batch, (T, finalRequest st.world.proxy request T) ∈ handedRequests evs) ∧
      ∀ x ∈ handedRequests evs, x.1 ∈ batch ∧ x.2 = finalRequest st.world.proxy request x.1 := by
  induction batch generalizing st with
  | nil => exact ⟨[], by simp, rfl, by simp, by simp [handedRequests]⟩
  | cons t ts ih =>
    rw [List.foldl_cons]
    obtain ⟨evs, h1, h2, h3, h4⟩ := ih (sendResponseStep s c request st t)
    obtain ⟨ms, hms, hstep⟩ := sendResponseStep_spec s c request st t
    have hm : handedRequests ms = [] := filterMap_metric _ handedRequest?_metric ms hms
    have key : ∀ new : List (Event R A),
        (sendResponseStep s c request st t).world.trace = st.world.trace ++ ms ++ new →
        (sendResponseStep s c request st t).world.proxy.subscribedResources =
          st.world.proxy.subscribedResources →
        (t, finalRequest st.world.proxy request t) ∈ handedRequests new →
        (∀ x ∈ handedRequests new, x = (t, finalRequest st.world.proxy request t)) →
        ∃ evs : List (Event R A),
          (ts.foldl (sendResponseStep s c request)
            (sendResponseStep s c request st t)).world.trace = st.world.trace ++ evs ∧
          (ts.foldl (sendResponseStep s c request)
            (sendResponseStep s c request st t)).world.proxy.subscribedResources =
            st.world.proxy.subscribedResources ∧
          (∀ T ∈ t :: ts, (T, finalRequest st.world.proxy request T) ∈ handedRequests evs) ∧
          ∀ x ∈ handedRequests evs,
            x.1 ∈ t :: ts ∧ x.2 = finalRequest st.world.proxy request x.1 := by
      intro new htr hsub hin hall
      have hfr : ∀ T, finalRequest (sendResponseStep s c request st t).world.proxy request T =
          finalRequest st.world.proxy request T :=
        fun T => finalRequest_congr _ _ request T hsub
      refine ⟨ms ++ new ++ evs, ?_, ?_, ?_, ?_⟩
      · rw [h1, htr]; simp
      · rw [h2, hsub]
      · intro T hT
        rw [handedRequests_append, handedRequests_append, hm, List.nil_append,
          List.mem_append]
        rcases List.mem_cons.1 hT with rfl | hT
        · exact Or.inl hin
        · exact Or.inr (hfr T ▸ h3 T hT)
      · intro x hx
        rw [handedRequests_append, handedRequests_append, hm, List.nil_append,
          List.mem_append] at hx
        rcases hx with hx | hx
        · rw [hall x hx]
          exact ⟨List.mem_cons_self _ _, rfl⟩
        · obtain ⟨hx1, hx2⟩ := h4 x hx
          exact ⟨List.mem_cons_of_mem _ hx1, by rw [hx2, hfr]⟩
    rcases hstep with ⟨err, -, hw, -⟩ | ⟨rs, -, -, hw, -⟩ |
      ⟨rs, resp, e, counter, -, -, hk, -, htr, hsub, -⟩
    · exact key _ (by rw [hw]) (by rw [hw]) (by simp [handedRequests, Event.handedRequest?])
        (by simp [handedRequests, Event.handedRequest?])
    · exact key _ (by rw [hw]) (by rw [hw]) (by simp [handedRequests, Event.handedRequest?])
        (by simp [handedRequests, Event.handedRequest?])
    · have hk2 : handedRequests [counter] = [] :=
        filterMap_metric _ handedRequest?_metric [counter] (by simpa using hk)
      have hnew : handedRequests
          ([.generate t (finalRequest st.world.proxy request t) (.ok rs),
            .respond t (finalRequest st.world.proxy request t) rs, .Send resp e] ++ [counter]) =
          [(t, finalRequest st.world.proxy request t),
            (t, finalRequest st.world.proxy request t)] := by
        rw [handedRequests_append, hk2]
        simp [handedRequests, Event.handedRequest?]
      exact key ([.generate t (finalRequest st.world.proxy request t) (.ok rs),
          .respond t (finalRequest st.world.proxy request t) rs, .Send resp e] ++ [counter])
        (by rw [htr]; simp) hsub (by rw [hnew]; simp) (by rw [hnew]; simp)

/-- The events that `sendResponse` appends after its loop are no request hand-overs. -/
theorem sendResponse_trace (s : Server R) (c : Collaborators R A τ) (w : World R A τ)
    (request : Option DiscoveryRequest) (batch : List TypeURI) :
    ∃ post : List (Event R A),
      (sendResponse s c w request batch).2.trace =
        (batch.foldl (sendResponseStep s c request) { world := w }).world.trace ++ post ∧
      handedRequests post = [] ∧ generations post = [] ∧ sendTypes post = [] := by
  simp only [sendResponse]
  cases hc : s.cacheEnabled <;> simp only [Bool.false_eq_true, if_false, if_true]
  · split
    · exact ⟨[.xdsPathTimeTrack c.TypeADS
          (!(batch.foldl (sendResponseStep s c request) { world := w }).thereWereErrors)],
        by simp [World.log], rfl, rfl, rfl⟩
    · exact ⟨[], by simp, rfl, rfl, rfl⟩
  · cases hr : c.RecordFullSnapshot
        (batch.foldl (sendResponseStep s c request) { world := w }).world.proxy
        (batch.foldl (sendResponseStep s c request) { world := w }).cacheResourceMap with
    | none =>
      simp only []
      split
      · exact ⟨[.RecordFullSnapshot
            (batch.foldl (sendResponseStep s c request) { world := w }).cacheResourceMap none,
            .xdsPathTimeTrack c.TypeADS
              (!(batch.foldl (sendResponseStep s c request) { world := w }).thereWereErrors)],
          by simp [World.log], rfl, rfl, rfl⟩
      · exact ⟨[.RecordFullSnapshot
            (batch.foldl (sendResponseStep s c request) { world := w }).cacheResourceMap none],
          by simp [World.log], rfl, rfl, rfl⟩
    | some err =>
      simp only []
      split
      · exact ⟨[.RecordFullSnapshot
            (batch.foldl (sendResponseStep s c request) { world := w }).cacheResourceMap
            (some err), .xdsPathTimeTrack c.TypeADS (!true)],
          by simp [World.log], rfl, rfl, rfl⟩
      · exact ⟨[.RecordFullSnapshot
            (batch.foldl (sendResponseStep s c request) { world := w }).cacheResourceMap
            (some err)],
          by simp [World.log], rfl, rfl, rfl⟩

/-- C6, as stated, fails: called with an incoming request for `EDS` and the batch `CDS`,
`sendResponse` hands the `EDS` request to generation and to the response builder while it
processes `CDS`. -/
theorem sendResponse_request_of_other_type :
    handedRequests (sendResponse (Demo.server false) (Demo.collaborators fun _ => false)
        (Demo.world 0) (some { TypeUrl := "EDS" }) ["CDS"]).2.trace =
      [("CDS", { TypeUrl := "EDS" }), ("CDS", { TypeUrl := "EDS" })] := by
  decide

/-- C6, amended: while `sendResponse` processes a batch type `T`, the request handed to
resource generation and to the response builder is, when the incoming request is absent, a
synthesized request with `TypeUrl` `T` and resource names equal to the session's subscribed
set for `T`, and, when the incoming request is present, that request itself, for every type
of the batch. Every type of the batch has a request handed to generation. -/
theorem sendResponse_requests (s : Server R) (c : Collaborators R A τ) (proxy : Proxy)
    (stream : τ) (clock : Nat) (request : Option DiscoveryRequest) (batch : List TypeURI) :
    (∀ T ∈ batch, ∃ req, (T, req) ∈ handedRequests
        (sendResponse s c { proxy := proxy, stream := stream, clock := clock } request
          batch).2.trace) ∧
      ∀ T req, (T, req) ∈ handedRequests
          (sendResponse s c { proxy := proxy, stream := stream, clock := clock } request
            batch).2.trace →
        T ∈ batch ∧
          (request = none →
            req.TypeUrl = T ∧
              req.ResourceNames = getResourceSliceFromMapset (proxy.GetSubscribedResources T)) ∧
          (∀ r, request = some r → req = r) := by
  obtain ⟨post, ht, hp, -, -⟩ :=
    sendResponse_trace s c { proxy := proxy, stream := stream, clock := clock } request batch
  obtain ⟨evs, h1, -, h3, h4⟩ := loop_requests s c request batch
    { world := { proxy := proxy, stream := stream, clock := clock } }
  have hh : handedRequests (sendResponse s c { proxy := proxy, stream := stream, clock := clock }
      request batch).2.trace = handedRequests evs := by
    rw [ht, h1, handedRequests_append, handedRequests_append, hp]
    simp [handedRequests]
  rw [hh]
  refine ⟨fun T hT => ⟨_, h3 T hT⟩, ?_⟩
  intro T req hmem
  obtain ⟨hx1, hx2⟩ := h4 (T, req) hmem
  refine ⟨hx1, ?_, ?_⟩
  · intro hnone
    subst hnone
    simp only [finalRequest] at hx2
    rw [hx2]
    exact ⟨rfl, rfl⟩
  · intro r hr
    subst hr
    simpa [finalRequest] using hx2

/-- C2, as stated, fails: in immediate mode the one type of the batch `CDS` is generated,
the stream's `Send` for it fails, and `sendResponse` returns `nil`. -/
theorem sendResponse_nil_after_failed_send :
    (sendErrors (sendResponse (Demo.server false) (Demo.collaborators fun _ => true)
        (Demo.world 0) none ["CDS"]).2.trace).getLast? = some (some (.other "stream closed")) ∧
      (sendResponse (Demo.server false) (Demo.collaborators fun _ => true)
        (Demo.world 0) none ["CDS"]).1 = none := by
  decide

/-- C2, amended: for every batch `sendResponse` returns `nil`, also when the transport send
for the last type processed in the batch failed; generation and serialization failures never
make the return value non-nil. This holds in either mode, with or without an incoming
request. -/
theorem sendResponse_returns_nil (s : Server R) (c : Collaborators R A τ) (w : World R A τ)
    (request : Option DiscoveryRequest) (batch : List TypeURI) :
    (sendResponse s c w request batch).1 = none := by
  simp only [sendResponse]

/-- Witness of C1: the batch `CDS, EDS, LDS, RDS, EDS`, where listeners fail to generate,
routes have no handler and the second `Send` fails, gets sends for `CDS, EDS, EDS`. -/
theorem sendResponse_immediate_witness :
    sendTypes (sendResponse (Demo.server false) (Demo.collaborators fun n => n == 1)
        { proxy := Demo.proxy 0, stream := 0, clock := 0 } none
        ["CDS", "EDS", "LDS", "RDS", "EDS"]).2.trace = ["CDS", "EDS", "EDS"] := by
  have h := (sendResponse_immediate (Demo.server false) (Demo.collaborators fun n => n == 1)
    rfl (Demo.proxy 0) 0 0 ["CDS", "EDS", "LDS", "RDS", "EDS"]).2.1
  rw [h]
  decide

end Dispatcher

end Osm
